import Mathlib

/-
  Verification of the ECG/PPG beat-metric pipeline of ArdECGPPG.ino.

  The pure helpers of the sketch (MedianOfThree, MedianOfFive, findbaseline, ...)
  are embedded as Lean functions; the stateful per-sample routines
  (findRpeak, AnalysePPG, HaveQT, the digital filters, the scheduling and
  PPG-gating slice of loop) are embedded as explicit state-passing step
  functions.  C int16_t / uint16_t narrowing is modelled with explicit
  wrap-around on ℤ; C float / double arithmetic is modelled exactly over ℚ
  (the float expressions of the sketch are taken at their mathematical value);
  C integer division (truncation toward zero) is Int.tdiv, and the
  arithmetic right shift by 16 of the filters is Int.fdiv by 2^16.
  Division by zero follows the Lean 0 convention where C leaves it undefined.
-/

set_option maxHeartbeats 2000000

namespace ECGPPG

/-- Twos-complement wrap-around to the int16_t range [-32768, 32767],
the effect of storing an out-of-range value in a C int16_t on AVR. -/
def toInt16 (x : ℤ) : ℤ := (x + 32768) % 65536 - 32768

/-- Wrap-around to the uint16_t range [0, 65535], the effect of converting
an integer value to a C uint16_t. -/
def wrapU16 (x : ℤ) : ℤ := x % 65536

/-- Truncation toward zero of a rational, the effect of a C float/double
to integer conversion (for in-range values). -/
def ratTrunc (q : ℚ) : ℤ := Int.tdiv q.num (q.den : ℤ)

/-- Sketch constant: samples per second (const int sps = 200). -/
def sps : ℤ := 200

/-- Sketch constant: milliseconds per sample (const int SamplePeriod = 1000 / sps). -/
def SamplePeriod : ℤ := 1000 / sps

/-- Sketch constant: differentiator lag (const int nDiff = sps / 65 = 3). -/
def nDiff : ℤ := sps / 65

/-- MedianOfThree from the sketch: a conditional swap, a conditional
overwrite, then the smaller of the two survivors.  Each let-binding is one
assignment of the C body, written in static single-assignment form. -/
def MedianOfThree (c d e : ℤ) : ℤ :=
  let c1 := if d < c then d else c
  let d1 := if d < c then c else d
  let e1 := if e < c1 then c1 else e
  if d1 < e1 then d1 else e1

/-- MedianOfFive from the sketch: the five-input selection network, each
let-binding being one assignment of the C body in static single-assignment
form (index k marks values produced by the k-th C if-block). -/
def MedianOfFive (a b c d e : ℤ) : ℤ :=
  let a1 := if b < a then b else a
  let b1 := if b < a then a else b
  let c1 := if d < c then d else c
  let d1 := if d < c then c else d
  let b2 := if c1 < a1 then d1 else b1
  let c2 := if c1 < a1 then a1 else c1
  let d2 := if c1 < a1 then b1 else d1
  let b3 := if b2 < e then e else b2
  let e3 := if b2 < e then b2 else e
  let d4 := if e3 < c2 then b3 else d2
  let e4 := if e3 < c2 then c2 else e3
  if d4 < e4 then d4 else e4

/-- A value r is the 2nd-smallest of three pairwise distinct values iff it
is one of them and exactly one of them is strictly below it. -/
def isMedian3 (c d e r : ℤ) : Prop :=
  r ∈ ([c, d, e] : List ℤ) ∧
    ([c, d, e] : List ℤ).countP (fun x => decide (x < r)) = 1

/-- A value r is the 3rd-smallest of five pairwise distinct values iff it
is one of them and exactly two of them are strictly below it. -/
def isMedian5 (a b c d e r : ℤ) : Prop :=
  r ∈ ([a, b, c, d, e] : List ℤ) ∧
    ([a, b, c, d, e] : List ℤ).countP (fun x => decide (x < r)) = 2

/-- State of FilterNotch50HzQ1: previous two outputs, previous two
DC-removed inputs, and the slew-limited DC-offset estimate mid. -/
structure FiltState where
  py : ℤ
  ppy : ℤ
  ppecg : ℤ
  pecg : ℤ
  mid : ℤ

/-- FilterNotch50HzQ1 from the sketch: slew-limited DC tracking, the Q=1
50 Hz notch biquad with 2^16-scaled integer coefficients, and the final
clamp of y + mid to [0, 1023].  Returns (new state, returned sample). -/
def FilterNotch50HzQ1 (s : FiltState) (ecgIn : ℤ) : FiltState × ℤ :=
  let mid := if s.mid < ecgIn then s.mid + 1 else s.mid - 1
  let ecg := ecgIn - mid
  let y := toInt16 (Int.fdiv (43691 * (ecg + s.ppecg) - 21845 * s.ppy) 65536)
  (⟨y, s.py, s.pecg, ecg, mid⟩, max 0 (min (y + mid) 1023))

/-- The un-clamped filtered value y + mid of one FilterNotch50HzQ1 step
(the value before the final constrain to [0, 1023]). -/
def filterUnclamped (s : FiltState) (ecgIn : ℤ) : ℤ :=
  let mid := if s.mid < ecgIn then s.mid + 1 else s.mid - 1
  let ecg := ecgIn - mid
  let y := toInt16 (Int.fdiv (43691 * (ecg + s.ppecg) - 21845 * s.ppy) 65536)
  y + mid

/-- Initial filter state: all static variables of the C function are 0. -/
def filterInit : FiltState := ⟨0, 0, 0, 0, 0⟩

/-- Iterate the notch filter over a list of input samples. -/
def filterIter (s : FiltState) : List ℤ → FiltState
  | [] => s
  | x :: r => filterIter (FilterNotch50HzQ1 s x).1 r

/-- State of findRpeak: the two decaying envelopes dmax and dmin. -/
structure RpeakState where
  dmax : ℚ
  dmin : ℚ

/-- findRpeak from the sketch: decay both envelopes by alpha, ratchet the
one the differentiated value diff exceeds, and flag a candidate if either
was exceeded.  alpha is the decay constant TimeConst(sps*2). -/
def findRpeak (alpha : ℚ) (s : RpeakState) (diff : ℚ) : RpeakState × Bool :=
  let dmax := s.dmax * alpha
  let dmax' := if dmax < diff then diff else dmax
  let dmin := s.dmin * alpha
  let dmin' := if diff < dmin then diff else dmin
  (⟨dmax', dmin'⟩, decide (dmax < diff) || decide (diff < dmin))

/-- Envelope invariant of findRpeak: dmin ≤ 0 ≤ dmax. -/
def rpeakInv (s : RpeakState) : Prop := s.dmin ≤ 0 ∧ 0 ≤ s.dmax

/-- Run findRpeak over a list of differentiated samples from the initial
state dmax = dmin = 0. -/
def runRpeak (alpha : ℚ) (l : List ℚ) : RpeakState :=
  l.foldl (fun s d => (findRpeak alpha s d).1) ⟨0, 0⟩

/-- findbaseline from the sketch: the self-weighting exponential baseline
update f = 1/(sqr(diff) + sqr(a-g) + 1); g := g*(1-f) + a*f.  sqr(diff)
multiplies two int16_t operands in 16-bit AVR int arithmetic, so the
product wraps (toInt16) for |diff| >= 182; sqr(a - g) is float arithmetic
and does not wrap. -/
def findbaseline (g : ℚ) (a diff : ℤ) : ℚ :=
  let f := 1 / ((toInt16 (diff * diff) : ℚ) + ((a : ℚ) - g) * ((a : ℚ) - g) + 1)
  g * (1 - f) + (a : ℚ) * f

/-- Modelled from the words of the spec, for comparison with findbaseline:
f = 1 / (diff^2 + (sample - g)^2 + 1); g = g*(1-f) + sample*f. -/
def findbaselineSpec (g : ℚ) (a diff : ℤ) : ℚ :=
  let f := 1 / ((diff : ℚ) ^ 2 + ((a : ℚ) - g) ^ 2 + 1)
  g * (1 - f) + (a : ℚ) * f

/-- RpeakFound from the sketch: 0 when sinceRpeak is inside the sps/5 = 40
sample (200 ms) refractory window; otherwise the instantaneous BPM
60000 / (sinceRpeak * 1000 / sps) computed in C int16 arithmetic. -/
def RpeakFound (sinceRpeak : ℤ) : ℤ :=
  if sinceRpeak < sps / 5 then 0
  else toInt16 (Int.tdiv 60000 (Int.tdiv (toInt16 (sinceRpeak * 1000)) sps))

/-- The R-peak slice of one AnalyseEPG sample: sinceRpeak is incremented,
and when findRpeak flagged a candidate, RpeakFound is consulted; on a
positive BPM the peak is accepted, the BPM is emitted and sinceRpeak is
reset to 0.  Returns (new sinceRpeak, emitted BPM if any). -/
def analyseRstep (found : Bool) (s : ℤ) : ℤ × Option ℤ :=
  let s1 := s + 1
  if found then
    let i := RpeakFound s1
    if 0 < i then (0, some i) else (s1, none)
  else (s1, none)

/-- The sinceRpeak counter after one sample. -/
def stepS (s : ℤ) (f : Bool) : ℤ := (analyseRstep f s).1

/-- The sinceRpeak counter after a list of candidate flags. -/
def sAfter (s : ℤ) (l : List Bool) : ℤ := l.foldl stepS s

/-- Whether the sample with candidate flag f, arriving with counter s,
emits an accepted R-peak (a BPM value). -/
def emitsAt (s : ℤ) (f : Bool) : Bool := ((analyseRstep f s).2).isSome

/-- State of HaveQT: the four stored raw intervals (in ms), the smoothed
QTs, and the published CurQT. -/
structure QTState where
  prev0 : ℤ
  prev1 : ℤ
  prev2 : ℤ
  prev3 : ℤ
  QTs : ℚ
  CurQT : ℤ

/-- Modelled from the spec wording of the rate-correction step (identical
to the formula in the sketch): multiply by the quadratic-in-BPM factor when
bpm > 0, else leave unchanged; C assigns the float product to int16. -/
def rateCorrect (bpm m : ℤ) : ℤ :=
  if 0 < bpm then
    ratTrunc ((m : ℚ) * ((0.00728 - 0.0000164 * (bpm : ℚ)) * (bpm : ℚ) + 0.622))
  else m

/-- The 1/6-weighted exponential smoother QTs = (QTs*5 + QT)/6. -/
def expSmooth6 (prev : ℚ) (x : ℤ) : ℚ := (prev * 5 + (x : ℚ)) / 6

/-- HaveQT from the sketch: convert the interval to ms, take the
median-of-five with the four stored raw intervals, rate-correct when
bpm > 0, smooth QTs = (QTs*5 + QT)/6, publish CurQT = QTs, and shift the
raw interval into the store. -/
def HaveQT (st : QTState) (QTinterval bpm : ℤ) : QTState :=
  let QTi := toInt16 (QTinterval * SamplePeriod)
  let QT0 := MedianOfFive st.prev0 st.prev1 st.prev2 st.prev3 QTi
  let QT1 :=
    if 0 < bpm then
      ratTrunc ((QT0 : ℚ) * ((0.00728 - 0.0000164 * (bpm : ℚ)) * (bpm : ℚ) + 0.622))
    else QT0
  let QTs' := (st.QTs * 5 + (QT1 : ℚ)) / 6
  { prev0 := QTi, prev1 := st.prev0, prev2 := st.prev1, prev3 := st.prev2,
    QTs := QTs', CurQT := wrapU16 (ratTrunc QTs') }

/-- Sketch constant: the T-wave fit window n = sps / 10 = 20 samples. -/
def nFit : ℤ := sps / 10

/-- Sketch constant: Sw = n*(n-1)*(n-2)/6, computed in C int arithmetic. -/
def Sw : ℚ := (Int.tdiv (nFit * (nFit - 1) * (nFit - 2)) 6 : ℤ)

/-- The weighted least-squares slope b = (Sta*Sw - St*Sa)/(Stt*Sw - St*St)
of the T-wave falling-edge fit. -/
def regressionSlope (Stt Sta Sa St : ℚ) : ℚ :=
  (Sta * Sw - St * Sa) / (Stt * Sw - St * St)

/-- The fitted intercept c = (Sa - b*St)/Sw. -/
def regressionIntercept (Stt Sta Sa St : ℚ) : ℚ :=
  (Sa - regressionSlope Stt Sta Sa St * St) / Sw

/-- The baseline intersection qi = (g - c)/b of the fitted line with the
baseline estimate g. -/
def baselineCross (Stt Sta Sa St g : ℚ) : ℚ :=
  (g - regressionIntercept Stt Sta Sa St) / regressionSlope Stt Sta Sa St

/-- The beat-fit evaluation tick of AnalyseEPG (sinceymax == n-1): accept
the QT candidate only when Stt > 0, the fitted slope is negative and the
baseline intersection is positive; the emitted candidate is qi adjusted by
sinceymax, lastNegDiff2 and nDiff, passed to HaveQT as an int16. -/
def QTfitEmit (Stt Sta Sa St g : ℚ) (lastNegDiff2 : ℤ) : Option ℤ :=
  if 0 < Stt then
    if regressionSlope Stt Sta Sa St < 0 then
      if 0 < baselineCross Stt Sta Sa St g then
        some (toInt16 (ratTrunc (baselineCross Stt Sta Sa St g
          - ((nFit : ℚ) - 1) + (lastNegDiff2 : ℚ) + (nDiff : ℚ))))
      else none
    else none
  else none

/-- Sketch constant: the PPG derivative window TC = 20 samples. -/
def TC : ℤ := 20

/-- State of AnalysePPG: previous PPG sample, the exponential derivative
diff, its running maximum maxdiff and the offset tmaxdiff at which the
maximum was attained. -/
structure PPGState where
  prevppg : ℤ
  diff : ℚ
  maxdiff : ℚ
  tmaxdiff : ℤ

/-- The exponential-derivative update of AnalysePPG:
diff = diff*(1 - 1/TC) + (ppg - prevppg)*(1/TC). -/
def ppgDiffStep (s : PPGState) (ppg : ℤ) : ℚ :=
  s.diff * (1 - 1 / (TC : ℚ)) + ((ppg : ℚ) - (s.prevppg : ℚ)) * (1 / (TC : ℚ))

/-- The raw PAT sample in ms: the maximum-slope offset minus half the
derivative window, times the sample period (C int16 arithmetic). -/
def rawPAT (t : ℤ) : ℤ := (t - Int.tdiv TC 2) * SamplePeriod

/-- AnalysePPG from the sketch: update the exponential derivative, track
its running maximum and the offset of the maximum, and at the start of a
new R-R interval (sinceRpeak == 0) publish
CurPAT = (tmaxdiff - TC/2) * SamplePeriod (stored in a uint16_t) and reset
the maximum.  Returns (new state, new CurPAT). -/
def AnalysePPG (s : PPGState) (CurPAT : ℤ) (ppg sinceRpeak : ℤ) : PPGState × ℤ :=
  let diff := ppgDiffStep s ppg
  let tmaxdiff := if s.maxdiff < diff then sinceRpeak else s.tmaxdiff
  let maxdiff := if s.maxdiff < diff then diff else s.maxdiff
  if sinceRpeak = 0 then
    (⟨ppg, diff, 0, 0⟩, wrapU16 (rawPAT tmaxdiff))
  else
    (⟨ppg, diff, maxdiff, tmaxdiff⟩, CurPAT)

/-- Run AnalysePPG over a list of (ppg, sinceRpeak) samples, collecting the
CurPAT value published at each sinceRpeak == 0 tick. -/
def runAnalysePPG (s : PPGState) (cur : ℤ) : List (ℤ × ℤ) → List ℤ
  | [] => []
  | (ppg, since) :: rest =>
      let r := AnalysePPG s cur ppg since
      if since = 0 then r.2 :: runAnalysePPG r.1 r.2 rest
      else runAnalysePPG r.1 r.2 rest

/-- Modelled from the spec: the PAT smoothing pipeline the spec describes
(median-of-five of the raw sample with four stored raw samples, then
PAT += (median - PAT)/4, published as CurPAT).  The sketch has no such
code; this definition exists to compare the claim of the spec with AnalysePPG. -/
structure PATSpecState where
  pat : ℚ
  st1 : ℤ
  st2 : ℤ
  st3 : ℤ
  st4 : ℤ

/-- One beat of the spec-described PAT pipeline: median-of-five of the
stored raw samples with the new raw sample, then the 1/4-weighted
exponential smoother, whose value is published. -/
def patSpecStep (s : PATSpecState) (raw : ℤ) : PATSpecState × ℚ :=
  let m := MedianOfFive s.st1 s.st2 s.st3 s.st4 raw
  let pat' := s.pat + ((m : ℚ) - s.pat) / 4
  (⟨pat', raw, s.st1, s.st2, s.st3⟩, pat')

/-- Run the spec-described PAT pipeline over a list of raw samples,
collecting the published values. -/
def patSpecRun (s : PATSpecState) : List ℤ → List ℚ
  | [] => []
  | r :: rest =>
      let x := patSpecStep s r
      x.2 :: patSpecRun x.1 rest

/-- Sketch constant: PPGreceivedMin = 100 valid PPG samples. -/
def PPGreceivedMin : ℕ := 100

/-- The PPG bookkeeping slice of loop: ppgmin tracking, energy
accumulation ppgEnergy += |ppg - prev_ppg|, substitution of ppg by -1 when
the energy exceeds 10000, and the PPGreceived counter (incremented while
below PPGreceivedMin when the current ppg value is < 1000). -/
structure LoopPPGState where
  ppgEnergy : ℕ
  prev_ppg : ℤ
  PPGreceived : ℕ
  ppgmin : ℤ

/-- One tick of the PPG bookkeeping in loop (in the ECG display modes where
the PPG pin is read).  Returns (new state, the ppg value passed on to
AnalysePPG and the display). -/
def loopPPGstep (s : LoopPPGState) (ppgIn : ℤ) : LoopPPGState × ℤ :=
  let ppgmin := min ppgIn s.ppgmin
  let energy := s.ppgEnergy + (ppgIn - s.prev_ppg).natAbs
  let ppg := if 10000 < energy then -1 else ppgIn
  let received :=
    if ppg < 1000 ∧ s.PPGreceived < PPGreceivedMin then s.PPGreceived + 1
    else s.PPGreceived
  (⟨energy, ppgIn, received, ppgmin⟩, ppg)

/-- The gate of showPAT: the PAT metric is drawn iff
PPGreceived >= PPGreceivedMin. -/
def showPATvisible (s : LoopPPGState) : Bool := decide (PPGreceivedMin ≤ s.PPGreceived)

/-- The deadline update of loop (uint32 millisecond arithmetic): on a tick
fired at time t, store t if t > nextTime + 10, else nextTime + 5. -/
def loopDeadline (t nextTime : ℕ) : ℕ :=
  if (nextTime + 10) % 4294967296 < t then t else (nextTime + 5) % 4294967296

/- ------------------------------------------------------------------ -/
/- Theorems                                                            -/
/- ------------------------------------------------------------------ -/

/-- Core case analysis for MedianOfThree: with every intermediate value of
the selection network named by a hypothesis, the returned value is the
median of three distinct inputs. -/
theorem med3_core (c d e c1 d1 e1 : ℤ)
    (hc1 : c1 = if d < c then d else c) (hd1 : d1 = if d < c then c else d)
    (he1 : e1 = if e < c1 then c1 else e)
    (hcd : c ≠ d) (hce : c ≠ e) (hde : d ≠ e) :
    isMedian3 c d e (if d1 < e1 then d1 else e1) := by
  by_cases h1 : d < c <;>
    simp only [h1, if_true, if_false, ite_true, ite_false] at hc1 hd1 <;>
    by_cases h2 : e < c1 <;>
    simp only [h2, if_true, if_false, ite_true, ite_false] at he1 <;>
    by_cases h3 : d1 < e1 <;>
    simp only [h3, if_true, if_false, ite_true, ite_false] <;>
    exact ⟨by simp only [List.mem_cons, List.not_mem_nil, or_false]; omega,
      by simp only [List.countP_cons, List.countP_nil, decide_eq_true_eq]
         split_ifs <;> omega⟩

/-- Core case analysis for MedianOfFive: with every intermediate value of
the selection network named by a hypothesis, the returned value is the
median of five distinct inputs. -/
theorem med5_core (a b c d e a1 b1 c1 d1 b2 c2 d2 b3 e3 d4 e4 : ℤ)
    (ha1 : a1 = if b < a then b else a) (hb1 : b1 = if b < a then a else b)
    (hc1 : c1 = if d < c then d else c) (hd1 : d1 = if d < c then c else d)
    (hb2 : b2 = if c1 < a1 then d1 else b1) (hc2 : c2 = if c1 < a1 then a1 else c1)
    (hd2 : d2 = if c1 < a1 then b1 else d1)
    (hb3 : b3 = if b2 < e then e else b2) (he3 : e3 = if b2 < e then b2 else e)
    (hd4 : d4 = if e3 < c2 then b3 else d2) (he4 : e4 = if e3 < c2 then c2 else e3)
    (hab : a ≠ b) (hac : a ≠ c) (had : a ≠ d) (hae : a ≠ e)
    (hbc : b ≠ c) (hbd : b ≠ d) (hbe : b ≠ e) (hcd : c ≠ d) (hce : c ≠ e) (hde : d ≠ e) :
    isMedian5 a b c d e (if d4 < e4 then d4 else e4) := by
  by_cases h1 : b < a <;> by_cases h2 : d < c <;>
    simp only [h1, h2, if_true, if_false, ite_true, ite_false] at ha1 hb1 hc1 hd1 <;>
    by_cases h3 : c1 < a1 <;>
    simp only [h3, if_true, if_false, ite_true, ite_false] at hb2 hc2 hd2 <;>
    by_cases h4 : b2 < e <;>
    simp only [h4, if_true, if_false, ite_true, ite_false] at hb3 he3 <;>
    by_cases h5 : e3 < c2 <;>
    simp only [h5, if_true, if_false, ite_true, ite_false] at hd4 he4 <;>
    by_cases h6 : d4 < e4 <;>
    simp only [h6, if_true, if_false, ite_true, ite_false] <;>
    exact ⟨by simp only [List.mem_cons, List.not_mem_nil, or_false]; omega,
      by simp only [List.countP_cons, List.countP_nil, decide_eq_true_eq]
         split_ifs <;> omega⟩

/-- MedianOfThree computes the median of three pairwise distinct inputs. -/
theorem med3_char (c d e : ℤ) (hcd : c ≠ d) (hce : c ≠ e) (hde : d ≠ e) :
    isMedian3 c d e (MedianOfThree c d e) :=
  med3_core c d e _ _ _ rfl rfl rfl hcd hce hde

/-- MedianOfFive computes the median of five pairwise distinct inputs. -/
theorem med5_char (a b c d e : ℤ)
    (hab : a ≠ b) (hac : a ≠ c) (had : a ≠ d) (hae : a ≠ e)
    (hbc : b ≠ c) (hbd : b ≠ d) (hbe : b ≠ e) (hcd : c ≠ d) (hce : c ≠ e) (hde : d ≠ e) :
    isMedian5 a b c d e (MedianOfFive a b c d e) :=
  med5_core a b c d e _ _ _ _ _ _ _ _ _ _ _ rfl rfl rfl rfl rfl rfl rfl rfl rfl rfl rfl
    hab hac had hae hbc hbd hbe hcd hce hde

/-- Counting strictly smaller elements is monotone in the bound. -/
theorem countP_lt_le_countP_lt (l : List ℤ) (r s : ℤ) (hrs : r ≤ s) :
    l.countP (fun x => decide (x < r)) ≤ l.countP (fun x => decide (x < s)) := by
  induction l with
  | nil => simp
  | cons y t ih =>
      simp only [List.countP_cons, decide_eq_true_eq]
      split_ifs <;> omega

/-- Counting strictly smaller elements strictly increases past a member. -/
theorem countP_lt_succ_le (l : List ℤ) (r s : ℤ) (hrs : r < s) (hr : r ∈ l) :
    l.countP (fun x => decide (x < r)) + 1 ≤ l.countP (fun x => decide (x < s)) := by
  induction l with
  | nil => simp at hr
  | cons y t ih =>
      simp only [List.countP_cons, decide_eq_true_eq, List.mem_cons] at hr ⊢
      rcases hr with h | h
      · have := countP_lt_le_countP_lt t r s (le_of_lt hrs)
        subst h
        split_ifs <;> omega
      · have := ih h
        split_ifs <;> omega

/-- At most one member of a list has a given number of strictly smaller
members. -/
theorem countP_lt_mem_unique (l : List ℤ) (r s : ℤ) (k : ℕ)
    (hr : r ∈ l) (hs : s ∈ l)
    (hcr : l.countP (fun x => decide (x < r)) = k)
    (hcs : l.countP (fun x => decide (x < s)) = k) : r = s := by
  rcases lt_trichotomy r s with h | h | h
  · have := countP_lt_succ_le l r s h hr
    omega
  · exact h
  · have := countP_lt_succ_le l s r h hs
    omega

/-- There is at most one value that is a member with exactly one strictly
smaller member: the median-of-three characterisation is unique. -/
theorem isMedian3_unique (c d e r s : ℤ)
    (hr : isMedian3 c d e r) (hs : isMedian3 c d e s) : r = s :=
  countP_lt_mem_unique ([c, d, e] : List ℤ) r s 1 hr.1 hs.1 hr.2 hs.2

/-- There is at most one value that is a member with exactly two strictly
smaller members: the median-of-five characterisation is unique. -/
theorem isMedian5_unique (a b c d e r s : ℤ)
    (hr : isMedian5 a b c d e r) (hs : isMedian5 a b c d e s) : r = s :=
  countP_lt_mem_unique ([a, b, c, d, e] : List ℤ) r s 2 hr.1 hs.1 hr.2 hs.2

/-- MedianOfThree of distinct inputs, as a Nodup hypothesis. -/
theorem med3_char_nodup (c d e : ℤ) (h : ([c, d, e] : List ℤ).Nodup) :
    isMedian3 c d e (MedianOfThree c d e) := by
  simp only [List.nodup_cons, List.mem_cons, List.not_mem_nil, or_false, not_or,
    List.nodup_nil, and_true] at h
  exact med3_char c d e h.1.1 h.1.2 h.2.1

/-- MedianOfFive of distinct inputs, as a Nodup hypothesis. -/
theorem med5_char_nodup (a b c d e : ℤ) (h : ([a, b, c, d, e] : List ℤ).Nodup) :
    isMedian5 a b c d e (MedianOfFive a b c d e) := by
  simp only [List.nodup_cons, List.mem_cons, List.not_mem_nil, or_false, not_or,
    List.nodup_nil, and_true] at h
  exact med5_char a b c d e h.1.1 h.1.2.1 h.1.2.2.1 h.1.2.2.2 h.2.1.1 h.2.1.2.1
    h.2.1.2.2 h.2.2.1.1 h.2.2.1.2 h.2.2.2.1

/-- C4: for pairwise distinct inputs, MedianOfThree returns the
2nd-smallest of its 3 arguments and MedianOfFive the 3rd-smallest of its 5
arguments, and the result of each function is unchanged under every permutation
of its arguments. -/
theorem C4_medians :
    (∀ c d e : ℤ, ([c, d, e] : List ℤ).Nodup →
      isMedian3 c d e (MedianOfThree c d e)) ∧
    (∀ a b c d e : ℤ, ([a, b, c, d, e] : List ℤ).Nodup →
      isMedian5 a b c d e (MedianOfFive a b c d e)) ∧
    (∀ c d e c' d' e' : ℤ, ([c, d, e] : List ℤ).Nodup →
      ([c', d', e'] : List ℤ).Perm [c, d, e] →
      MedianOfThree c' d' e' = MedianOfThree c d e) ∧
    (∀ a b c d e a' b' c' d' e' : ℤ, ([a, b, c, d, e] : List ℤ).Nodup →
      ([a', b', c', d', e'] : List ℤ).Perm [a, b, c, d, e] →
      MedianOfFive a' b' c' d' e' = MedianOfFive a b c d e) := by
  refine ⟨fun c d e h => med3_char_nodup c d e h,
    fun a b c d e h => med5_char_nodup a b c d e h, ?_, ?_⟩
  · intro c d e c' d' e' h hp
    have h' := (hp.nodup_iff).mpr h
    have m := med3_char_nodup c d e h
    have m' := med3_char_nodup c' d' e' h'
    have mm : isMedian3 c d e (MedianOfThree c' d' e') := by
      refine ⟨(hp.mem_iff).mp m'.1, ?_⟩
      rw [← hp.countP_eq]
      exact m'.2
    exact isMedian3_unique c d e _ _ mm m
  · intro a b c d e a' b' c' d' e' h hp
    have h' := (hp.nodup_iff).mpr h
    have m := med5_char_nodup a b c d e h
    have m' := med5_char_nodup a' b' c' d' e' h'
    have mm : isMedian5 a b c d e (MedianOfFive a' b' c' d' e') := by
      refine ⟨(hp.mem_iff).mp m'.1, ?_⟩
      rw [← hp.countP_eq]
      exact m'.2
    exact isMedian5_unique a b c d e _ _ mm m

/-- Witness for C4: a concrete permutation instance. -/
theorem C4_medians_witness : MedianOfFive 5 1 4 2 3 = MedianOfFive 1 2 3 4 5 :=
  C4_medians.2.2.2 1 2 3 4 5 5 1 4 2 3 (by decide) (by decide)

/-- The 16-bit square of diff does not wrap while |diff| < 182. -/
theorem toInt16_mul_self (diff : ℤ) (h1 : -182 < diff) (h2 : diff < 182) :
    toInt16 (diff * diff) = diff * diff := by
  unfold toInt16
  have hnn : 0 ≤ diff * diff := mul_self_nonneg diff
  have hub : diff * diff ≤ 32761 := by
    nlinarith [mul_nonneg (by omega : (0 : ℤ) ≤ 181 - diff)
      (by omega : (0 : ℤ) ≤ 181 + diff)]
  rw [Int.emod_eq_of_lt (by omega) (by omega)]
  omega

/-- C7 (amended): one call to findbaseline updates the baseline estimate
exactly by the rule with the 16-bit wrapped square,
f = 1/(wrap16(diff*diff) + (a - g)^2 + 1); g := g*(1-f) + a*f, and returns
the new estimate (a function of (g, a, diff) only, reading and changing no
other state); whenever |diff| < 182 the square does not wrap and the
update coincides with the spec rule f = 1/(diff^2 + (a - g)^2 + 1). -/
theorem C7_findbaseline_rule (g : ℚ) (a diff : ℤ) :
    findbaseline g a diff =
      g * (1 - 1 / ((toInt16 (diff * diff) : ℚ) + ((a : ℚ) - g) ^ 2 + 1)) +
        (a : ℚ) * (1 / ((toInt16 (diff * diff) : ℚ) + ((a : ℚ) - g) ^ 2 + 1)) ∧
    (-182 < diff → diff < 182 → findbaseline g a diff = findbaselineSpec g a diff) := by
  constructor
  · simp only [findbaseline, pow_two]
  · intro h1 h2
    simp only [findbaseline, findbaselineSpec, pow_two, toInt16_mul_self diff h1 h2,
      Int.cast_mul]

/-- Witness for C7: a non-wrapping differentiated value, where the sketch
agrees with the spec rule. -/
theorem C7_findbaseline_rule_witness :
    findbaseline 0 1 100 = findbaselineSpec 0 1 100 :=
  (C7_findbaseline_rule 0 1 100).2 (by decide) (by decide)

/-- C7 counterexample: at diff = 200 the 16-bit square wraps 40000 to
-25536, so the update differs from the spec rule
f = 1/(diff^2 + (a - g)^2 + 1): from g = 0, a = 1 the sketch yields
-1/25534 while the rule yields 1/40002. -/
theorem C7_counterexample : findbaseline 0 1 200 ≠ findbaselineSpec 0 1 200 := by
  have h16 : toInt16 40000 = -25536 := by decide
  norm_num [findbaseline, findbaselineSpec, h16]

/-- C9 (amended): for every filter state and input, FilterNotch50HzQ1
returns exactly the clamp of the un-clamped filtered value y + mid to
[0, 1023]; in particular the returned value is always in [0, 1023]. -/
theorem C9_filter_output (s : FiltState) (x : ℤ) :
    (FilterNotch50HzQ1 s x).2 = max 0 (min (filterUnclamped s x) 1023) ∧
    0 ≤ (FilterNotch50HzQ1 s x).2 ∧ (FilterNotch50HzQ1 s x).2 ≤ 1023 := by
  have h : (FilterNotch50HzQ1 s x).2 = max 0 (min (filterUnclamped s x) 1023) := rfl
  refine ⟨h, ?_, ?_⟩ <;> rw [h] <;> omega

/-- C9 counterexample: the un-clamped filtered value is not preserved as a
separate output; on the third sample of a constant 1023 input the
un-clamped value exceeds 1023 and only the clamped value is returned. -/
theorem C9_counterexample :
    ¬ ∀ (s : FiltState) (x : ℤ), (FilterNotch50HzQ1 s x).2 = filterUnclamped s x := by
  intro h
  exact absurd (h (filterIter filterInit [1023, 1023]) 1023) (by decide)

/-- C10: for any decay factor alpha in (0,1), the findRpeak envelopes
satisfy dmin ≤ 0 ≤ dmax after every call (and along any run from the
initial state 0,0); a differentiated value of 0 never flags a candidate;
and the function flags exactly when the input exceeds the decayed dmax or
is below the decayed dmin. -/
theorem C10_envelope (alpha : ℚ) (h0 : 0 < alpha) (h1 : alpha < 1) :
    (∀ (s : RpeakState) (d : ℚ), rpeakInv s → rpeakInv (findRpeak alpha s d).1) ∧
    (∀ l : List ℚ, rpeakInv (runRpeak alpha l)) ∧
    (∀ s : RpeakState, rpeakInv s → (findRpeak alpha s 0).2 = false) ∧
    (∀ (s : RpeakState) (d : ℚ),
      (findRpeak alpha s d).2 = true ↔ (s.dmax * alpha < d ∨ d < s.dmin * alpha)) := by
  have hstep : ∀ (s : RpeakState) (d : ℚ), rpeakInv s → rpeakInv (findRpeak alpha s d).1 := by
    intro s d hs
    obtain ⟨hm, hM⟩ := hs
    have hmax : 0 ≤ s.dmax * alpha := mul_nonneg hM h0.le
    have hmin : s.dmin * alpha ≤ 0 := mul_nonpos_iff.mpr (Or.inr ⟨hm, h0.le⟩)
    unfold findRpeak rpeakInv
    dsimp only
    constructor
    · split_ifs <;> linarith
    · split_ifs <;> linarith
  refine ⟨hstep, ?_, ?_, ?_⟩
  · intro l
    have hall : ∀ (t : List ℚ) (s : RpeakState), rpeakInv s →
        rpeakInv (t.foldl (fun s d => (findRpeak alpha s d).1) s) := by
      intro t
      induction t with
      | nil => intro s hs; simpa using hs
      | cons d r ih => intro s hs; simpa using ih _ (hstep s d hs)
    exact hall l ⟨0, 0⟩ ⟨le_refl 0, le_refl 0⟩
  · intro s hs
    obtain ⟨hm, hM⟩ := hs
    have hmax : 0 ≤ s.dmax * alpha := mul_nonneg hM h0.le
    have hmin : s.dmin * alpha ≤ 0 := mul_nonpos_iff.mpr (Or.inr ⟨hm, h0.le⟩)
    unfold findRpeak
    dsimp only
    simp only [Bool.or_eq_false_iff, decide_eq_false_iff_not, not_lt]
    exact ⟨hmax, hmin⟩
  · intro s d
    unfold findRpeak
    dsimp only
    simp only [Bool.or_eq_true, decide_eq_true_eq]

/-- Witness for C10: the envelope invariant holds along a concrete run
with alpha = 1/2. -/
theorem C10_envelope_witness : rpeakInv (runRpeak (1/2) [3, -5]) :=
  (C10_envelope (1/2) one_half_pos one_half_lt_one).2.1 [3, -5]

/-- C8 (amended): when the loop fires at time t > nextTime (no uint32
wrap), the stored deadline is t when more than 10 ms late and nextTime + 5
otherwise; for t in (nextTime+5, nextTime+10] this is below max(t, nextTime+5). -/
theorem C8_deadline_catchup (t nextTime : ℕ) (hfire : nextTime < t)
    (hnowrap : nextTime + 10 < 4294967296) :
    loopDeadline t nextTime = if nextTime + 10 < t then t else nextTime + 5 := by
  unfold loopDeadline
  rw [Nat.mod_eq_of_lt hnowrap, Nat.mod_eq_of_lt (by omega)]

/-- Witness for C8: catching up when more than 10 ms late. -/
theorem C8_deadline_catchup_witness : loopDeadline 23 7 = 23 := by
  rw [C8_deadline_catchup 23 7 (by decide) (by decide)]
  decide

/-- C8 counterexample: fired at t = 8 against stored deadline 0, the loop
stores 0 + 5 = 5, not max(8, 0 + 5) = 8. -/
theorem C8_counterexample : 0 < 8 ∧ loopDeadline 8 0 ≠ max 8 (0 + 5) := by decide

/-- C6 (amended): the PAT display gate is exactly PPGreceived ≥ 100; the
counter is monotone, capped at PPGreceivedMin and frozen on ticks whose
(possibly -1-substituted) ppg value is not < 1000; when the accumulated
energy exceeds 10000 the value passed downstream is -1. -/
theorem C6_ppg_gate :
    (∀ s : LoopPPGState, showPATvisible s = true ↔ PPGreceivedMin ≤ s.PPGreceived) ∧
    (∀ (s : LoopPPGState) (p : ℤ),
      10000 < (loopPPGstep s p).1.ppgEnergy → (loopPPGstep s p).2 = -1) ∧
    (∀ (s : LoopPPGState) (p : ℤ),
      s.PPGreceived ≤ (loopPPGstep s p).1.PPGreceived ∧
      (loopPPGstep s p).1.PPGreceived ≤ max s.PPGreceived PPGreceivedMin) ∧
    (∀ (s : LoopPPGState) (p : ℤ), ¬ (loopPPGstep s p).2 < 1000 →
      (loopPPGstep s p).1.PPGreceived = s.PPGreceived) := by
  refine ⟨?_, ?_, ?_, ?_⟩
  · intro s
    simp [showPATvisible]
  · intro s p h
    unfold loopPPGstep at h ⊢
    dsimp only at h ⊢
    rw [if_pos h]
  · intro s p
    unfold loopPPGstep
    dsimp only
    constructor <;> split_ifs <;> simp only [PPGreceivedMin] at * <;> omega
  · intro s p h
    unfold loopPPGstep at h ⊢
    dsimp only at h ⊢
    rw [if_neg]
    intro hc
    exact h hc.1

/-- Witness for C6: a tick whose accumulated energy is over threshold
passes -1 downstream. -/
theorem C6_ppg_gate_witness : (loopPPGstep ⟨15000, 0, 100, 1024⟩ 0).2 = -1 :=
  C6_ppg_gate.2.1 ⟨15000, 0, 100, 1024⟩ 0 (by decide)

/-- C6 counterexample: with the energy over threshold the PAT metric is
still shown (showPAT checks only PPGreceived), so suppression does not
happen; the conjunction claimed by the spec fails at this concrete tick. -/
theorem C6_counterexample :
    ¬ ∀ (s : LoopPPGState) (p : PPGState) (cur ppgIn since : ℤ),
        10000 < (loopPPGstep s ppgIn).1.ppgEnergy →
        showPATvisible (loopPPGstep s ppgIn).1 = false ∧
        (AnalysePPG p cur ((loopPPGstep s ppgIn).2) since).2 = cur := by
  intro h
  have h2 := h ⟨15000, 0, 100, 1024⟩ ⟨-1, 0, 0, 0⟩ 150 0 0 (by decide)
  exact absurd h2.1 (by decide)

/-- Inside the refractory window RpeakFound returns 0. -/
theorem RpeakFound_small (s : ℤ) (h : s < 40) : RpeakFound s = 0 := by
  unfold RpeakFound
  have h5 : sps / 5 = (40 : ℤ) := by decide
  rw [h5, if_pos h]

/-- A sample emits an accepted R-peak iff a candidate was flagged and
RpeakFound returned a positive BPM. -/
theorem emitsAt_true_iff (s : ℤ) (f : Bool) :
    emitsAt s f = true ↔ (f = true ∧ 0 < RpeakFound (s + 1)) := by
  cases f
  · simp [emitsAt, analyseRstep]
  · by_cases h : 0 < RpeakFound (s + 1) <;> simp [emitsAt, analyseRstep, h]

/-- The counter resets to 0 on an accepted peak and advances by 1 otherwise. -/
theorem stepS_eq (s : ℤ) (f : Bool) :
    stepS s f = if emitsAt s f = true then 0 else s + 1 := by
  cases f
  · simp [stepS, emitsAt, analyseRstep]
  · by_cases h : 0 < RpeakFound (s + 1) <;> simp [stepS, emitsAt, analyseRstep, h]

/-- Splitting a run of the counter at an append. -/
theorem sAfter_append (s : ℤ) (l1 l2 : List Bool) :
    sAfter s (l1 ++ l2) = sAfter (sAfter s l1) l2 := by
  simp [sAfter, List.foldl_append]

/-- One step of a run of the counter. -/
theorem sAfter_cons (s : ℤ) (f : Bool) (l : List Bool) :
    sAfter s (f :: l) = sAfter (stepS s f) l := rfl

/-- The counter stays nonnegative and grows by at most one per sample. -/
theorem sAfter_bounds (l : List Bool) : ∀ s : ℤ, 0 ≤ s →
    0 ≤ sAfter s l ∧ sAfter s l ≤ s + l.length := by
  induction l with
  | nil =>
      intro s hs
      simpa [sAfter] using hs
  | cons f t ih =>
      intro s hs
      rw [sAfter_cons]
      simp only [List.length_cons]
      have hst : stepS s f = 0 ∨ stepS s f = s + 1 := by
        rw [stepS_eq]
        split_ifs <;> simp
      rcases hst with h | h
      · rw [h]
        have hb := ih 0 le_rfl
        push_cast
        omega
      · rw [h]
        have hb := ih (s + 1) (by omega)
        push_cast
        omega

/-- C1: RpeakFound returns 0 strictly inside the 40-sample (200 ms)
refractory window, in which case no BPM is emitted and the counter
advances without being reset; the counter resets to 0 exactly on an
accepted peak; consequently along any run two accepted R-peaks are never
fewer than 40 samples apart. -/
theorem C1_refractory :
    (∀ (f : Bool) (s : ℤ), 0 ≤ s → s + 1 < 40 →
      RpeakFound (s + 1) = 0 ∧ analyseRstep f s = (s + 1, none)) ∧
    (∀ (f : Bool) (s : ℤ), 0 ≤ s →
      ((analyseRstep f s).1 = 0 ↔ (f = true ∧ 0 < RpeakFound (s + 1)))) ∧
    (∀ (s0 : ℤ) (xs ys : List Bool) (f g : Bool), 0 ≤ s0 →
      emitsAt (sAfter s0 xs) f = true → (ys.length : ℤ) < 39 →
      emitsAt (sAfter s0 (xs ++ f :: ys)) g = false) := by
  refine ⟨?_, ?_, ?_⟩
  · intro f s h0 h40
    have hz := RpeakFound_small (s + 1) h40
    refine ⟨hz, ?_⟩
    cases f
    · rfl
    · simp [analyseRstep, hz]
  · intro f s h0
    cases f
    · simp only [analyseRstep, Bool.false_eq_true, if_false, ite_false, false_and,
        iff_false]
      omega
    · by_cases h : 0 < RpeakFound (s + 1) <;> simp [analyseRstep, h] <;> omega
  · intro s0 xs ys f g hs0 hemit hlen
    have hstep : stepS (sAfter s0 xs) f = 0 := by
      rw [stepS_eq, if_pos hemit]
    have hrun : sAfter s0 (xs ++ f :: ys) = sAfter 0 ys := by
      rw [sAfter_append, sAfter_cons, hstep]
    have hb := sAfter_bounds ys 0 le_rfl
    rw [hrun]
    cases hE : emitsAt (sAfter 0 ys) g
    · rfl
    · exfalso
      have hp := (emitsAt_true_iff _ _).mp hE
      have h40 : sAfter 0 ys + 1 < 40 := by omega
      rw [RpeakFound_small _ h40] at hp
      exact lt_irrefl 0 hp.2

/-- Witness for C1: a candidate six samples after a peak is rejected. -/
theorem C1_refractory_witness :
    RpeakFound (5 + 1) = 0 ∧ analyseRstep true 5 = (5 + 1, none) :=
  C1_refractory.1 true 5 (by decide) (by decide)

/-- C2: HaveQT converts the interval to ms, takes the median-of-five with
the four stored raw intervals, rate-corrects the median by the quadratic
factor exactly when bpm > 0, applies QTs := (QTs*5 + QT)/6 and publishes
CurQT := QTs, finally shifting the raw ms interval into the store. -/
theorem C2_haveqt_pipeline (st : QTState) (q bpm : ℤ) :
    HaveQT st q bpm =
      { prev0 := toInt16 (q * SamplePeriod), prev1 := st.prev0, prev2 := st.prev1,
        prev3 := st.prev2,
        QTs := expSmooth6 st.QTs (rateCorrect bpm
          (MedianOfFive st.prev0 st.prev1 st.prev2 st.prev3 (toInt16 (q * SamplePeriod)))),
        CurQT := wrapU16 (ratTrunc (expSmooth6 st.QTs (rateCorrect bpm
          (MedianOfFive st.prev0 st.prev1 st.prev2 st.prev3
            (toInt16 (q * SamplePeriod)))))) } := rfl

/-- C5: the beat-fit tick emits a QT candidate iff none of the discard
conditions hold: QTfitEmit is none exactly when the regression denominator
Stt*Sw - St*St vanishes, or Stt ≤ 0, or the fitted slope is nonnegative,
or the baseline intersection is nonpositive. -/
theorem C5_qt_guard (Stt Sta Sa St g : ℚ) (lnd : ℤ) :
    QTfitEmit Stt Sta Sa St g lnd = none ↔
      (Stt * Sw - St * St = 0 ∨ Stt ≤ 0 ∨ 0 ≤ regressionSlope Stt Sta Sa St ∨
        baselineCross Stt Sta Sa St g ≤ 0) := by
  constructor
  · intro h
    by_cases hS : 0 < Stt
    · by_cases hb : regressionSlope Stt Sta Sa St < 0
      · by_cases hq : 0 < baselineCross Stt Sta Sa St g
        · exfalso
          simp [QTfitEmit, hS, hb, hq] at h
        · exact Or.inr (Or.inr (Or.inr (not_lt.mp hq)))
      · exact Or.inr (Or.inr (Or.inl (not_lt.mp hb)))
    · exact Or.inr (Or.inl (not_lt.mp hS))
  · rintro (h | h | h | h)
    · have hb : ¬ regressionSlope Stt Sta Sa St < 0 := by
        unfold regressionSlope
        rw [h, div_zero]
        exact lt_irrefl 0
      by_cases hS : 0 < Stt <;> simp [QTfitEmit, hS, hb]
    · simp [QTfitEmit, not_lt.mpr h]
    · have hb := not_lt.mpr h
      by_cases hS : 0 < Stt <;> simp [QTfitEmit, hS, hb]
    · have hq := not_lt.mpr h
      by_cases hS : 0 < Stt <;> by_cases hb : regressionSlope Stt Sta Sa St < 0 <;>
        simp [QTfitEmit, hS, hb, hq]

/-- Lower-bound core for the MedianOfFive network: if the 1st, 2nd and 5th
arguments are at least L then so is the returned value, whatever the other
two arguments are. -/
theorem med5_lower_core (L a b c d e a1 b1 c1 d1 b2 c2 d2 b3 e3 d4 e4 : ℤ)
    (ha1 : a1 = if b < a then b else a) (hb1 : b1 = if b < a then a else b)
    (hc1 : c1 = if d < c then d else c) (hd1 : d1 = if d < c then c else d)
    (hb2 : b2 = if c1 < a1 then d1 else b1) (hc2 : c2 = if c1 < a1 then a1 else c1)
    (hd2 : d2 = if c1 < a1 then b1 else d1)
    (hb3 : b3 = if b2 < e then e else b2) (he3 : e3 = if b2 < e then b2 else e)
    (hd4 : d4 = if e3 < c2 then b3 else d2) (he4 : e4 = if e3 < c2 then c2 else e3)
    (hLa : L ≤ a) (hLb : L ≤ b) (hLe : L ≤ e) :
    L ≤ if d4 < e4 then d4 else e4 := by
  by_cases h1 : b < a <;> by_cases h2 : d < c <;>
    simp only [h1, h2, if_true, if_false, ite_true, ite_false] at ha1 hb1 hc1 hd1 <;>
    by_cases h3 : c1 < a1 <;>
    simp only [h3, if_true, if_false, ite_true, ite_false] at hb2 hc2 hd2 <;>
    by_cases h4 : b2 < e <;>
    simp only [h4, if_true, if_false, ite_true, ite_false] at hb3 he3 <;>
    by_cases h5 : e3 < c2 <;>
    simp only [h5, if_true, if_false, ite_true, ite_false] at hd4 he4 <;>
    by_cases h6 : d4 < e4 <;>
    simp only [h6, if_true, if_false, ite_true, ite_false] <;>
    omega

/-- With 550, 150 and 150 among its arguments, MedianOfFive is at least
150, whatever the remaining two arguments are. -/
theorem med5_ge_150 (i j : ℤ) : 150 ≤ MedianOfFive 550 150 i j 150 :=
  med5_lower_core 150 550 150 i j 150 _ _ _ _ _ _ _ _ _ _ _
    rfl rfl rfl rfl rfl rfl rfl rfl rfl rfl rfl (by decide) (by decide) (by decide)

/-- C3 (amended): at the start of a new R-R interval (sinceRpeak == 0)
AnalysePPG publishes the raw PAT sample (tmaxdiff - TC/2) * SamplePeriod
directly as CurPAT (stored as uint16), with no median-of-five and no
exponential smoothing, and resets the maximum; on every other tick CurPAT
is unchanged. -/
theorem C3_pat_direct (s : PPGState) (cur ppg since : ℤ) :
    (since = 0 → (AnalysePPG s cur ppg since).2 =
      wrapU16 (rawPAT (if s.maxdiff < ppgDiffStep s ppg then 0 else s.tmaxdiff))) ∧
    (¬ since = 0 → (AnalysePPG s cur ppg since).2 = cur) := by
  constructor
  · intro hz
    subst hz
    unfold AnalysePPG
    dsimp only
    rw [if_pos rfl]
  · intro hz
    unfold AnalysePPG
    dsimp only
    rw [if_neg hz]

/-- Witness for C3: a beat boundary publishing the raw PAT sample 150
directly. -/
theorem C3_pat_direct_witness : (AnalysePPG ⟨0, 0, 0, 40⟩ 7 0 0).2 = 150 := by
  have h := (C3_pat_direct ⟨0, 0, 0, 40⟩ 7 0 0).1 rfl
  rw [h]
  have hc : ¬ ((⟨0, 0, 0, 40⟩ : PPGState).maxdiff < ppgDiffStep ⟨0, 0, 0, 40⟩ 0) := by
    simp [ppgDiffStep]
  rw [if_neg hc]
  decide

/-- C3 counterexample: the sketch publishes the raw PAT values
150, 550, 150 on three consecutive beats, but no state of the
median-of-five plus 1/4-smoother pipeline described by the spec can
publish that sequence for those raw samples (the third output would force
a median of -1050, below the bound 150). -/
theorem C3_counterexample :
    runAnalysePPG ⟨0, 0, 0, 0⟩ 0
        [(2000, 40), (2000, 0), (4000, 120), (4000, 0), (6000, 40), (6000, 0)] =
      [150, 550, 150] ∧
    ¬ ∃ s0 : PATSpecState, patSpecRun s0 [150, 550, 150] = [150, 550, 150] := by
  constructor
  · have hr40 : wrapU16 (rawPAT 40) = 150 := by decide
    have hr120 : wrapU16 (rawPAT 120) = 550 := by decide
    norm_num [runAnalysePPG, AnalysePPG, ppgDiffStep, TC, hr40, hr120]
  · rintro ⟨⟨p, i1, i2, i3, i4⟩, h⟩
    simp only [patSpecRun, patSpecStep, List.cons.injEq, and_true] at h
    obtain ⟨h1, h2, h3⟩ := h
    have hb : (150 : ℤ) ≤ MedianOfFive 550 150 i1 i2 150 := med5_ge_150 i1 i2
    have hb' : (150 : ℚ) ≤ ((MedianOfFive 550 150 i1 i2 150 : ℤ) : ℚ) := by
      exact_mod_cast hb
    linarith

end ECGPPG
